import Mathlib

/-!
Shallow embedding of the `ProgressBlock` canvas widget (src/progress.js).

JS numbers are modelled as rationals (`ℚ`).  Angles passed to `ctx.arc` are
pairs `c + p·π` with rational `c` and `p`, so angle arithmetic is exact and
decidable.  The 2D context is modelled as the list of drawing commands issued
so far (`none` models a nulled-out context after `destroy`).  The browser's
`requestAnimationFrame` / `cancelAnimationFrame` machinery is modelled by a
`Scheduler` holding the ids of the outstanding frame requests; ids start at 1
and are never reused, matching the HTML spec (a frame handle is a nonzero
integer, and `if (this.settings.animationFrame)` tests JS truthiness).
Methods that can throw a JS `TypeError` (a member access on `null`) return
`Except JSErr`.
-/

namespace ProgressBlock

/-- A JS runtime error (the only one reachable here is a `TypeError` from a
member access on `null`). -/
inductive JSErr where
  | typeError
deriving DecidableEq, Repr

/-- An angle `c + p * π` (radians), with exact rational components. -/
structure Angle where
  c : ℚ
  p : ℚ
deriving DecidableEq, Repr

/-- One drawing command issued to the 2D context. -/
inductive DrawCmd where
  | clearRect (x y w h : ℚ)
  | beginPath
  | strokeStyle (s : String)
  | lineWidth (w : ℚ)
  | arc (cx cy radius : ℚ) (startAngle endAngle : Angle)
  | stroke
deriving DecidableEq, Repr

/-- CSS `visibility` of the canvas element (set by `setHidden`). -/
inductive Visibility where
  | visible
  | hidden
deriving DecidableEq, Repr

/-- The host's animation-frame scheduler: the next request id to hand out and
the ids of the outstanding (not yet fired, not cancelled) requests. -/
structure Scheduler where
  nextId : ℕ
  pending : List ℕ
deriving DecidableEq, Repr

/-- `requestAnimationFrame`: returns a fresh nonzero id and records it. -/
def Scheduler.request (s : Scheduler) : ℕ × Scheduler :=
  (s.nextId, { nextId := s.nextId + 1, pending := s.pending ++ [s.nextId] })

/-- `cancelAnimationFrame id`: drops the request with that id, if any. -/
def Scheduler.cancel (s : Scheduler) (id : ℕ) : Scheduler :=
  { s with pending := s.pending.filter (fun j => j != id) }

/-- JS `Math.min` on (non-NaN) numbers. -/
def jsMin (a b : ℚ) : ℚ := if a ≤ b then a else b

/-- JS `Math.max` on (non-NaN) numbers. -/
def jsMax (a b : ℚ) : ℚ := if b ≤ a then a else b

/-- The whole observable state: the widget's `settings` record, its canvas
and 2D context, the frame scheduler and the viewport width.
`renders` instruments the embedding: it logs the rotation argument of every
`draw` invocation (a "render call"), so that claims about how many renders a
method performs are statable; it mirrors no stored JS field. -/
structure World where
  value : ℚ
  animate : Bool
  hidden : Bool
  rotation : ℚ
  animationFrame : Option ℕ
  canvasWidth : ℚ
  canvasHeight : ℚ
  canvasVisibility : Visibility
  ctx : Option (List DrawCmd)
  canvasAttached : Bool
  resizeListener : Bool
  renders : List ℚ
  sched : Scheduler
  viewportWidth : ℚ
deriving DecidableEq, Repr

/-- The drawing commands one un-hidden `draw(rotation)` call issues
(src/progress.js lines 104-127). -/
def drawCmds (value width height rotation : ℚ) : List DrawCmd :=
  [ DrawCmd.clearRect 0 0 width height,
    DrawCmd.beginPath,
    DrawCmd.strokeStyle "#E5E7EB",
    DrawCmd.lineWidth 10,
    DrawCmd.arc (width / 2) (height / 2) (jsMin width height / (2.5 : ℚ) - 10)
      (Angle.mk 0 0) (Angle.mk 0 2),
    DrawCmd.stroke,
    DrawCmd.beginPath,
    DrawCmd.strokeStyle "blue",
    DrawCmd.lineWidth 10,
    DrawCmd.arc (width / 2) (height / 2) (jsMin width height / (2.5 : ℚ) - 10)
      (Angle.mk rotation (-(1 / 2))) (Angle.mk rotation (-(1 / 2) + value / 100 * 2)),
    DrawCmd.stroke ]

/-- `draw(rotation)` (src/progress.js lines 101-128): logs the render call,
returns at once when hidden, otherwise issues the commands of `drawCmds`;
throws a `TypeError` when the context has been nulled by `destroy`. -/
def World.draw (w : World) (rotation : ℚ) : Except JSErr World :=
  if w.hidden then
    Except.ok { w with renders := w.renders ++ [rotation] }
  else
    match w.ctx with
    | none => Except.error JSErr.typeError
    | some cs =>
        Except.ok { w with
          renders := w.renders ++ [rotation],
          ctx := some (cs ++ drawCmds w.value w.canvasWidth w.canvasHeight rotation) }

/-- `setValue(value)` (lines 56-59): clamp to `[0,100]`, store, redraw with
the default rotation `0`. -/
def World.setValue (w : World) (v : ℚ) : Except JSErr World :=
  World.draw { w with value := jsMin 100 (jsMax 0 v) } 0

/-- `setCanvasSize()` (lines 42-47): square the canvas at
`Math.min(window.innerWidth * 0.8, 200)` and redraw. -/
def World.setCanvasSize (w : World) : Except JSErr World :=
  World.draw { w with
    canvasWidth := jsMin (w.viewportWidth * (0.8 : ℚ)) 200,
    canvasHeight := jsMin (w.viewportWidth * (0.8 : ℚ)) 200 } 0

/-- `setHidden(hidden)` (lines 83-87): store the flag and toggle the canvas's
CSS visibility; nothing else, in particular no redraw. -/
def World.setHidden (w : World) (hidden : Bool) : World :=
  { w with
    hidden := hidden,
    canvasVisibility := if hidden then Visibility.hidden else Visibility.visible }

/-- The body of the `animate` closure in `startAnimation` (lines 138-142):
advance the rotation by `0.02`, draw with it, request the next frame and
store its id. -/
def World.animateStep (w : World) : Except JSErr World :=
  match World.draw { w with rotation := w.rotation + (0.02 : ℚ) }
      (w.rotation + (0.02 : ℚ)) with
  | Except.error e => Except.error e
  | Except.ok w2 =>
      Except.ok { w2 with
        animationFrame := some (w2.sched.request).1,
        sched := (w2.sched.request).2 }

/-- `startAnimation()` (lines 137-144): calls the `animate` closure once
synchronously; each later tick re-enters the same closure via the
scheduler. -/
def World.startAnimation (w : World) : Except JSErr World :=
  World.animateStep w

/-- The cancellation step of `stopAnimation` (lines 154-156): cancel the
stored frame id when it is truthy; the stored id itself is not cleared. -/
def World.stopCancel (w : World) : World :=
  match w.animationFrame with
  | some id => if id = 0 then w else { w with sched := w.sched.cancel id }
  | none => w

/-- `stopAnimation()` (lines 153-159): cancel the stored frame id when it is
truthy, zero the rotation, redraw. -/
def World.stopAnimation (w : World) : Except JSErr World :=
  World.draw { w.stopCancel with rotation := 0 } 0

/-- `setAnimate(animate)` (lines 68-75): store the flag, then start or stop
the loop. -/
def World.setAnimate (w : World) (b : Bool) : Except JSErr World :=
  if b then World.startAnimation { w with animate := b }
  else World.stopAnimation { w with animate := b }

/-- `destroy()` (lines 183-194): stop the animation, detach the resize
listener, clear the canvas, detach the canvas from its parent, null the
context.  Note the context access throws once `ctx` has already been
nulled. -/
def World.destroy (w : World) : Except JSErr World :=
  match World.stopAnimation w with
  | Except.error e => Except.error e
  | Except.ok w1 =>
      let w2 := { w1 with resizeListener := false }
      match w2.ctx with
      | none => Except.error JSErr.typeError
      | some cs =>
          let w3 := { w2 with
            ctx := some (cs ++ [DrawCmd.clearRect 0 0 w2.canvasWidth w2.canvasHeight]) }
          let w4 := if w3.canvasAttached then { w3 with canvasAttached := false } else w3
          Except.ok { w4 with ctx := none }

/-- The caller-supplied `options` object of the constructor: each recognized
key may be present (overriding the default) or absent. -/
structure Options where
  value : Option ℚ
  animate : Option Bool
  hidden : Option Bool
  rotation : Option ℚ
  animationFrame : Option (Option ℕ)
deriving DecidableEq, Repr

/-- An empty `options` object. -/
def optsNone : Options := ⟨none, none, none, none, none⟩

/-- The constructor (lines 14-34): merge `options` onto the defaults (no
validation of any override), size the canvas (which draws), and subscribe to
the viewport resize notification.  The canvas lookup is assumed to succeed. -/
def construct (viewportWidth : ℚ) (o : Options) : Except JSErr World :=
  World.setCanvasSize
    { value := o.value.getD 0,
      animate := o.animate.getD false,
      hidden := o.hidden.getD false,
      rotation := o.rotation.getD 0,
      animationFrame := o.animationFrame.getD none,
      canvasWidth := 0,
      canvasHeight := 0,
      canvasVisibility := Visibility.visible,
      ctx := some [],
      canvasAttached := true,
      resizeListener := true,
      renders := [],
      sched := { nextId := 1, pending := [] },
      viewportWidth := viewportWidth }

/-- One externally triggered operation on a live widget: a setter call, a
viewport resize, the host firing a scheduled frame, or `destroy`. -/
inductive Op where
  | setValue (v : ℚ)
  | setAnimate (b : Bool)
  | setHidden (b : Bool)
  | resize
  | fireFrame (id : ℕ)
  | destroy
deriving DecidableEq, Repr

/-- The host fires the scheduled frame `id`: if it is still outstanding it is
removed from the pending set and the widget's `animate` closure runs;
otherwise nothing happens. -/
def World.fireFrame (w : World) (id : ℕ) : Except JSErr World :=
  if id ∈ w.sched.pending then
    World.animateStep { w with sched := w.sched.cancel id }
  else
    Except.ok w

/-- Run one operation. -/
def runStep (w : World) : Op → Except JSErr World
  | Op.setValue v => w.setValue v
  | Op.setAnimate b => w.setAnimate b
  | Op.setHidden b => Except.ok (w.setHidden b)
  | Op.resize => w.setCanvasSize
  | Op.fireFrame id => w.fireFrame id
  | Op.destroy => w.destroy

/-- States reachable from `w0` by operations that complete without a JS
error. -/
inductive Reach (w0 : World) : World → Prop where
  | refl : Reach w0 w0
  | tail (w w' : World) (op : Op) :
      Reach w0 w → runStep w op = Except.ok w' → Reach w0 w'

/-- States reachable from `w0` when, additionally, `setAnimate(true)` is only
ever called while no frame is outstanding (the widget is not already
spinning). -/
inductive ReachNoRestart (w0 : World) : World → Prop where
  | refl : ReachNoRestart w0 w0
  | tail (w w' : World) (op : Op) :
      ReachNoRestart w0 w → runStep w op = Except.ok w' →
      (op = Op.setAnimate true → w.sched.pending = []) →
      ReachNoRestart w0 w'

/-- A convenient live widget state used by the witness theorems. -/
def sample : World :=
  { value := 5,
    animate := false,
    hidden := false,
    rotation := 0,
    animationFrame := some 3,
    canvasWidth := 200,
    canvasHeight := 200,
    canvasVisibility := Visibility.visible,
    ctx := some [],
    canvasAttached := true,
    resizeListener := true,
    renders := [],
    sched := { nextId := 4, pending := [3] },
    viewportWidth := 250 }

/-- The scheduler part of the Idle/Spinning state-machine invariant: ids are
nonzero, at most one frame is outstanding, and any outstanding frame is the
one whose id the widget stored last. -/
def SchedInv (w : World) : Prop :=
  1 ≤ w.sched.nextId ∧ w.sched.pending.length ≤ 1 ∧
    ∀ id ∈ w.sched.pending, w.animationFrame = some id ∧ 0 < id

/- ### Helper lemmas -/

lemma jsMin_eq (a b : ℚ) : jsMin a b = min a b := by
  rw [jsMin, min_def]

lemma jsMax_eq (a b : ℚ) : jsMax a b = max a b := by
  rw [jsMax]
  split
  · exact (max_eq_left ‹b ≤ a›).symm
  · exact (max_eq_right (le_of_not_le ‹¬b ≤ a›)).symm

lemma draw_ok_spec (w : World) (r : ℚ) (w' : World)
    (h : w.draw r = Except.ok w') :
    w'.value = w.value ∧ w'.animate = w.animate ∧ w'.hidden = w.hidden ∧
    w'.rotation = w.rotation ∧ w'.animationFrame = w.animationFrame ∧
    w'.canvasWidth = w.canvasWidth ∧ w'.canvasHeight = w.canvasHeight ∧
    w'.canvasVisibility = w.canvasVisibility ∧
    w'.canvasAttached = w.canvasAttached ∧
    w'.resizeListener = w.resizeListener ∧ w'.sched = w.sched ∧
    w'.viewportWidth = w.viewportWidth ∧ w'.renders = w.renders ++ [r] ∧
    (∀ cs, w.ctx = some cs → ∃ ds, w'.ctx = some ds) := by
  unfold World.draw at h
  split at h
  · injection h with h
    subst h
    exact ⟨rfl, rfl, rfl, rfl, rfl, rfl, rfl, rfl, rfl, rfl, rfl, rfl, rfl,
      fun cs hcs => ⟨cs, hcs⟩⟩
  · split at h
    · exact absurd h (by simp)
    · injection h with h
      subst h
      exact ⟨rfl, rfl, rfl, rfl, rfl, rfl, rfl, rfl, rfl, rfl, rfl, rfl, rfl,
        fun cs hcs => ⟨_, rfl⟩⟩

lemma draw_ok_of_some (w : World) (r : ℚ) (cs : List DrawCmd)
    (h : w.ctx = some cs) : ∃ w', w.draw r = Except.ok w' := by
  unfold World.draw
  split
  · exact ⟨_, rfl⟩
  · rw [h]
    exact ⟨_, rfl⟩

lemma draw_some_eq (w : World) (r : ℚ) (cs : List DrawCmd)
    (hh : w.hidden = false) (hctx : w.ctx = some cs) :
    w.draw r = Except.ok { w with
      renders := w.renders ++ [r],
      ctx := some (cs ++ drawCmds w.value w.canvasWidth w.canvasHeight r) } := by
  unfold World.draw
  simp [hh, hctx]

lemma draw_hidden_eq (w : World) (r : ℚ) (hh : w.hidden = true) :
    w.draw r = Except.ok { w with renders := w.renders ++ [r] } := by
  unfold World.draw
  simp [hh]

lemma stopCancel_eq (w : World) :
    w.stopCancel = { w with sched := w.stopCancel.sched } := by
  unfold World.stopCancel
  split
  · split <;> rfl
  · rfl

lemma stopCancel_sched_nextId (w : World) :
    w.stopCancel.sched.nextId = w.sched.nextId := by
  unfold World.stopCancel Scheduler.cancel
  split
  · split <;> rfl
  · rfl

lemma stopCancel_pending_nil (w : World)
    (hp : ∀ id ∈ w.sched.pending, w.animationFrame = some id ∧ 0 < id) :
    w.stopCancel.sched.pending = [] := by
  unfold World.stopCancel
  cases haf : w.animationFrame with
  | none =>
      have hnil : w.sched.pending = [] := by
        refine List.eq_nil_iff_forall_not_mem.mpr fun a ha => ?_
        have h1 := (hp a ha).1
        rw [haf] at h1
        cases h1
      simp [hnil]
  | some id =>
      by_cases hz : id = 0
      · have hnil : w.sched.pending = [] := by
          refine List.eq_nil_iff_forall_not_mem.mpr fun a ha => ?_
          obtain ⟨h1, h2⟩ := hp a ha
          rw [haf] at h1
          injection h1 with h1
          omega
        simp [hz, hnil]
      · have hfil : w.sched.pending.filter (fun j => j != id) = [] := by
          refine List.filter_eq_nil_iff.mpr fun a ha => ?_
          have h1 := (hp a ha).1
          rw [haf] at h1
          injection h1 with h1
          simp [h1]
        simp [hz, Scheduler.cancel, hfil]

lemma animateStep_ok_sched (w w' : World) (h : w.animateStep = Except.ok w') :
    w'.sched.nextId = w.sched.nextId + 1 ∧
    w'.sched.pending = w.sched.pending ++ [w.sched.nextId] ∧
    w'.animationFrame = some w.sched.nextId ∧
    w'.value = w.value ∧
    w'.rotation = w.rotation + (0.02 : ℚ) ∧
    w'.renders = w.renders ++ [w.rotation + (0.02 : ℚ)] := by
  unfold World.animateStep at h
  cases hd : World.draw { w with rotation := w.rotation + (0.02 : ℚ) }
      (w.rotation + (0.02 : ℚ)) with
  | error e => rw [hd] at h; simp at h
  | ok w2 =>
      rw [hd] at h
      simp only [Except.ok.injEq] at h
      subst h
      obtain ⟨hv, ha, hh, hr, haf, hcw, hch, hvis, hca, hrl, hs, hvw, hrend, hctx⟩ :=
        draw_ok_spec _ _ _ hd
      exact ⟨by simp [Scheduler.request, hs], by simp [Scheduler.request, hs],
        by simp [Scheduler.request, hs], hv, hr, hrend⟩

lemma stopAnimation_ok_sched (w w' : World) (h : w.stopAnimation = Except.ok w') :
    w'.sched = w.stopCancel.sched ∧ w'.animationFrame = w.animationFrame ∧
    w'.value = w.value ∧ w'.rotation = 0 ∧ w'.renders = w.renders ++ [0] := by
  unfold World.stopAnimation at h
  obtain ⟨hv, ha, hh, hr, haf, hcw, hch, hvis, hca, hrl, hs, hvw, hrend, hctx⟩ :=
    draw_ok_spec _ _ _ h
  refine ⟨hs, ?_, ?_, hr, ?_⟩
  · exact haf.trans (by rw [stopCancel_eq])
  · exact hv.trans (by rw [stopCancel_eq])
  · exact hrend.trans (by rw [stopCancel_eq])

lemma destroy_ok_fields (w w' : World) (h : w.destroy = Except.ok w') :
    w'.sched = w.stopCancel.sched ∧ w'.animationFrame = w.animationFrame ∧
    w'.value = w.value ∧ w'.rotation = 0 ∧ w'.renders = w.renders ++ [0] ∧
    w'.ctx = none := by
  unfold World.destroy at h
  cases hs : w.stopAnimation with
  | error e => rw [hs] at h; simp at h
  | ok w1 =>
      rw [hs] at h
      obtain ⟨h1, h2, h3, h4, h5⟩ := stopAnimation_ok_sched w w1 hs
      obtain ⟨v1, a1, hd1, r1, af1, cw1, ch1, vis1, c1, att1, rl1, rd1, s1, vw1⟩ := w1
      cases c1 with
      | none => simp at h
      | some cs1 =>
          cases att1 <;> simp at h <;> subst h <;> exact ⟨h1, h2, h3, h4, h5, rfl⟩

lemma fireFrame_ok_cases (w : World) (id : ℕ) (w' : World)
    (h : w.fireFrame id = Except.ok w') :
    (id ∈ w.sched.pending ∧
      World.animateStep { w with sched := w.sched.cancel id } = Except.ok w') ∨
    (id ∉ w.sched.pending ∧ w' = w) := by
  unfold World.fireFrame at h
  split at h
  · exact Or.inl ⟨‹_›, h⟩
  · injection h with h
    exact Or.inr ⟨‹_›, h.symm⟩

lemma setAnimate_true_eq (w : World) :
    w.setAnimate true = World.animateStep { w with animate := true } := by
  unfold World.setAnimate World.startAnimation
  simp

lemma setAnimate_false_eq (w : World) :
    w.setAnimate false = World.stopAnimation { w with animate := false } := by
  unfold World.setAnimate
  simp

lemma animateStep_ok_of_some (w : World) (cs : List DrawCmd)
    (hctx : w.ctx = some cs) : ∃ w', w.animateStep = Except.ok w' := by
  unfold World.animateStep
  obtain ⟨wd, hwd⟩ := draw_ok_of_some { w with rotation := w.rotation + (0.02 : ℚ) }
    (w.rotation + (0.02 : ℚ)) cs hctx
  rw [hwd]
  exact ⟨_, rfl⟩

lemma stopAnimation_ok_of_some (w : World) (cs : List DrawCmd)
    (hctx : w.ctx = some cs) :
    ∃ w', w.stopAnimation = Except.ok w' ∧ ∃ ds, w'.ctx = some ds := by
  unfold World.stopAnimation
  have hctx2 : ({ w.stopCancel with rotation := 0 } : World).ctx = some cs := by
    rw [stopCancel_eq]; exact hctx
  obtain ⟨wd, hwd⟩ := draw_ok_of_some _ 0 cs hctx2
  rw [hwd]
  obtain ⟨hv, ha, hh, hr, haf, hcw, hch, hvis, hca, hrl, hs, hvw, hrend, hctxf⟩ :=
    draw_ok_spec _ _ _ hwd
  exact ⟨wd, rfl, hctxf cs hctx2⟩

lemma destroy_ok_of_some (w : World) (cs : List DrawCmd)
    (hctx : w.ctx = some cs) : ∃ w', w.destroy = Except.ok w' := by
  obtain ⟨w1, hw1, ds, hds⟩ := stopAnimation_ok_of_some w cs hctx
  unfold World.destroy
  rw [hw1]
  obtain ⟨v1, a1, hd1, r1, af1, cw1, ch1, vis1, c1, att1, rl1, rd1, s1, vw1⟩ := w1
  have hc : c1 = some ds := hds
  subst hc
  cases att1 <;> exact ⟨_, rfl⟩

lemma clamp_bounds (v : ℚ) :
    0 ≤ jsMin 100 (jsMax 0 v) ∧ jsMin 100 (jsMax 0 v) ≤ 100 := by
  rw [jsMin_eq, jsMax_eq]
  exact ⟨le_min (by norm_num) (le_max_left 0 v), min_le_left _ _⟩

lemma runStep_ok_value (w : World) (op : Op) (w' : World)
    (h : runStep w op = Except.ok w') :
    w'.value = w.value ∨
    ∃ v, op = Op.setValue v ∧ w'.value = jsMin 100 (jsMax 0 v) := by
  cases op with
  | setValue v =>
      refine Or.inr ⟨v, rfl, ?_⟩
      simp only [runStep] at h
      unfold World.setValue at h
      exact (draw_ok_spec _ _ _ h).1
  | setAnimate b =>
      refine Or.inl ?_
      cases b
      · simp only [runStep] at h
        rw [setAnimate_false_eq] at h
        exact (stopAnimation_ok_sched _ _ h).2.2.1
      · simp only [runStep] at h
        rw [setAnimate_true_eq] at h
        exact (animateStep_ok_sched _ _ h).2.2.2.1
  | setHidden b =>
      simp only [runStep] at h
      injection h with h
      subst h
      exact Or.inl rfl
  | resize =>
      simp only [runStep] at h
      unfold World.setCanvasSize at h
      exact Or.inl (draw_ok_spec _ _ _ h).1
  | fireFrame id =>
      simp only [runStep] at h
      rcases fireFrame_ok_cases _ _ _ h with ⟨hin, hstep⟩ | ⟨hnin, hw⟩
      · exact Or.inl (animateStep_ok_sched _ _ hstep).2.2.2.1
      · subst hw
        exact Or.inl rfl
  | destroy =>
      simp only [runStep] at h
      exact Or.inl (destroy_ok_fields _ _ h).2.2.1

lemma runStep_schedInv (w : World) (op : Op) (w' : World)
    (h : runStep w op = Except.ok w')
    (hg : op = Op.setAnimate true → w.sched.pending = [])
    (hi : SchedInv w) : SchedInv w' := by
  obtain ⟨hn1, hlen, hmem⟩ := hi
  cases op with
  | setValue v =>
      simp only [runStep] at h
      unfold World.setValue at h
      obtain ⟨hv, ha, hh, hr, haf, hcw, hch, hvis, hca, hrl, hs, hvw, hrend, hctx⟩ :=
        draw_ok_spec _ _ _ h
      exact ⟨by rw [hs]; exact hn1, by rw [hs]; exact hlen,
        by rw [hs, haf]; exact hmem⟩
  | resize =>
      simp only [runStep] at h
      unfold World.setCanvasSize at h
      obtain ⟨hv, ha, hh, hr, haf, hcw, hch, hvis, hca, hrl, hs, hvw, hrend, hctx⟩ :=
        draw_ok_spec _ _ _ h
      exact ⟨by rw [hs]; exact hn1, by rw [hs]; exact hlen,
        by rw [hs, haf]; exact hmem⟩
  | setHidden b =>
      simp only [runStep] at h
      injection h with h
      subst h
      exact ⟨hn1, hlen, hmem⟩
  | setAnimate b =>
      cases b
      · simp only [runStep] at h
        rw [setAnimate_false_eq] at h
        obtain ⟨hs, haf, hv, hrot, hrend⟩ := stopAnimation_ok_sched _ _ h
        have hpend : (World.stopCancel { w with animate := false }).sched.pending = [] :=
          stopCancel_pending_nil { w with animate := false } hmem
        have hnid := stopCancel_sched_nextId { w with animate := false }
        refine ⟨?_, ?_, ?_⟩
        · rw [hs, hnid]; exact hn1
        · rw [hs, hpend]; simp
        · rw [hs, hpend]; simp
      · have hp0 : ({ w with animate := true } : World).sched.pending = [] := hg rfl
        simp only [runStep] at h
        rw [setAnimate_true_eq] at h
        obtain ⟨hni, hpe, haf, hv, hrot, hrend⟩ := animateStep_ok_sched _ _ h
        refine ⟨?_, ?_, ?_⟩
        · rw [hni]; omega
        · rw [hpe, hp0]; simp
        · rw [hpe, hp0]
          intro id hid
          simp only [List.nil_append, List.mem_singleton] at hid
          subst hid
          exact ⟨haf, hn1⟩
  | fireFrame id =>
      simp only [runStep] at h
      rcases fireFrame_ok_cases _ _ _ h with ⟨hin, hstep⟩ | ⟨hnin, hw⟩
      · obtain ⟨hni, hpe, haf, hv, hrot, hrend⟩ := animateStep_ok_sched _ _ hstep
        have hfil : ({ w with sched := w.sched.cancel id } : World).sched.pending = [] := by
          show w.sched.pending.filter (fun j => j != id) = []
          have haf_id := (hmem id hin).1
          refine List.filter_eq_nil_iff.mpr fun a ha => ?_
          have haf_a := (hmem a ha).1
          rw [haf_id] at haf_a
          injection haf_a with he
          simp [he]
        refine ⟨?_, ?_, ?_⟩
        · rw [hni]; omega
        · rw [hpe, hfil]; simp
        · rw [hpe, hfil]
          intro e he
          simp only [List.nil_append, List.mem_singleton] at he
          subst he
          exact ⟨haf, hn1⟩
      · subst hw
        exact ⟨hn1, hlen, hmem⟩
  | destroy =>
      simp only [runStep] at h
      obtain ⟨hs, haf, hv, hrot, hrend, hcn⟩ := destroy_ok_fields _ _ h
      have hpend := stopCancel_pending_nil w hmem
      have hnid := stopCancel_sched_nextId w
      refine ⟨?_, ?_, ?_⟩
      · rw [hs, hnid]; exact hn1
      · rw [hs, hpend]; simp
      · rw [hs, hpend]; simp

/- ### Claim theorems -/

/-- C1: for every numeric input `v`, `setValue v` stores exactly
`clamp(v, 0, 100) = min 100 (max 0 v)` in the value field and performs one
re-render with rotation offset `0`. -/
theorem setValue_clamps_and_renders (w : World) (v : ℚ) (cs : List DrawCmd)
    (h : w.ctx = some cs) :
    ∃ w', w.setValue v = Except.ok w' ∧
      w'.value = min 100 (max 0 v) ∧
      w'.renders = w.renders ++ [0] := by
  unfold World.setValue World.draw
  cases hh : w.hidden <;>
    simp [hh, h, jsMin_eq, jsMax_eq]

/-- C1 witness: `setValue 150` on the concrete state `sample`. -/
theorem setValue_clamps_and_renders_witness :
    sample.ctx = some [] ∧
    (∃ w', sample.setValue 150 = Except.ok w' ∧
      w'.value = min 100 (max 0 150) ∧
      w'.renders = sample.renders ++ [0]) :=
  ⟨rfl, setValue_clamps_and_renders sample 150 [] rfl⟩

/-- C7: an un-hidden render with value `v` and rotation offset `r` clears the
region, draws the background ring (full `2π` sweep) and the foreground arc
from `−π/2 + r` sweeping `(v/100)·2π`, both centered, with radius
`min(width, height)/2.5 − 10` and stroke width 10. -/
theorem draw_arc_geometry (w : World) (r : ℚ) (cs : List DrawCmd)
    (hh : w.hidden = false) (h : w.ctx = some cs) :
    ∃ w', w.draw r = Except.ok w' ∧
      w'.ctx = some (cs ++
        [ DrawCmd.clearRect 0 0 w.canvasWidth w.canvasHeight,
          DrawCmd.beginPath,
          DrawCmd.strokeStyle "#E5E7EB",
          DrawCmd.lineWidth 10,
          DrawCmd.arc (w.canvasWidth / 2) (w.canvasHeight / 2)
            (min w.canvasWidth w.canvasHeight / (2.5 : ℚ) - 10)
            (Angle.mk 0 0) (Angle.mk 0 2),
          DrawCmd.stroke,
          DrawCmd.beginPath,
          DrawCmd.strokeStyle "blue",
          DrawCmd.lineWidth 10,
          DrawCmd.arc (w.canvasWidth / 2) (w.canvasHeight / 2)
            (min w.canvasWidth w.canvasHeight / (2.5 : ℚ) - 10)
            (Angle.mk r (-(1 / 2)))
            (Angle.mk r (-(1 / 2) + w.value / 100 * 2)),
          DrawCmd.stroke ]) := by
  unfold World.draw
  simp [hh, h, drawCmds, jsMin_eq]

/-- C7 witness: a render of the concrete state `sample` at offset `3`. -/
theorem draw_arc_geometry_witness :
    sample.hidden = false ∧ sample.ctx = some [] ∧
    (∃ w', sample.draw 3 = Except.ok w' ∧
      w'.ctx = some ([] ++
        [ DrawCmd.clearRect 0 0 sample.canvasWidth sample.canvasHeight,
          DrawCmd.beginPath,
          DrawCmd.strokeStyle "#E5E7EB",
          DrawCmd.lineWidth 10,
          DrawCmd.arc (sample.canvasWidth / 2) (sample.canvasHeight / 2)
            (min sample.canvasWidth sample.canvasHeight / (2.5 : ℚ) - 10)
            (Angle.mk 0 0) (Angle.mk 0 2),
          DrawCmd.stroke,
          DrawCmd.beginPath,
          DrawCmd.strokeStyle "blue",
          DrawCmd.lineWidth 10,
          DrawCmd.arc (sample.canvasWidth / 2) (sample.canvasHeight / 2)
            (min sample.canvasWidth sample.canvasHeight / (2.5 : ℚ) - 10)
            (Angle.mk 3 (-(1 / 2)))
            (Angle.mk 3 (-(1 / 2) + sample.value / 100 * 2)),
          DrawCmd.stroke ])) :=
  ⟨rfl, rfl, draw_arc_geometry sample 3 [] rfl rfl⟩

/-- C8: a render call while hidden performs no drawing at all and raises no
error; only the call log grows, every stored field and the drawing surface
are untouched. -/
theorem draw_hidden_noop (w : World) (r : ℚ) (hh : w.hidden = true) :
    w.draw r = Except.ok { w with renders := w.renders ++ [r] } := by
  unfold World.draw
  simp [hh]

/-- C8 witness: a hidden render of `sample.setHidden true` at offset `7`. -/
theorem draw_hidden_noop_witness :
    (sample.setHidden true).hidden = true ∧
    (sample.setHidden true).draw 7 =
      Except.ok { sample.setHidden true with
        renders := (sample.setHidden true).renders ++ [7] } :=
  ⟨rfl, draw_hidden_noop (sample.setHidden true) 7 rfl⟩

/-- C9: `resize` squares the drawing surface at edge
`min (0.8 × viewportWidth) 200` and re-renders once. -/
theorem resize_square (w : World) (cs : List DrawCmd) (h : w.ctx = some cs) :
    ∃ w', w.setCanvasSize = Except.ok w' ∧
      w'.canvasWidth = min ((0.8 : ℚ) * w.viewportWidth) 200 ∧
      w'.canvasHeight = min ((0.8 : ℚ) * w.viewportWidth) 200 ∧
      w'.renders = w.renders ++ [0] := by
  unfold World.setCanvasSize World.draw
  cases hh : w.hidden <;>
    simp [hh, h, jsMin_eq, mul_comm]

/-- C9 witness: resizing the concrete state `sample` (viewport width 250). -/
theorem resize_square_witness :
    sample.ctx = some [] ∧
    (∃ w', sample.setCanvasSize = Except.ok w' ∧
      w'.canvasWidth = min ((0.8 : ℚ) * sample.viewportWidth) 200 ∧
      w'.canvasHeight = min ((0.8 : ℚ) * sample.viewportWidth) 200 ∧
      w'.renders = sample.renders ++ [0]) :=
  ⟨rfl, resize_square sample [] rfl⟩

/-- C10: `setHidden flag` changes only the hidden field and the canvas's
CSS visibility; it performs no render, and the value, rotation, animate,
animationFrame and scheduler fields as well as the drawn content are
unchanged. -/
theorem setHidden_only_visibility (w : World) (b : Bool) :
    (w.setHidden b).hidden = b ∧
    (w.setHidden b).canvasVisibility =
      (if b then Visibility.hidden else Visibility.visible) ∧
    (w.setHidden b).value = w.value ∧
    (w.setHidden b).rotation = w.rotation ∧
    (w.setHidden b).animate = w.animate ∧
    (w.setHidden b).animationFrame = w.animationFrame ∧
    (w.setHidden b).sched = w.sched ∧
    (w.setHidden b).renders = w.renders ∧
    (w.setHidden b).ctx = w.ctx ∧
    (w.setHidden b).canvasWidth = w.canvasWidth ∧
    (w.setHidden b).canvasHeight = w.canvasHeight := by
  unfold World.setHidden
  simp

/-- C2 counterexample: the constructor merges its `options` onto the defaults
without validation, so constructing with the override `value := 150` stores
150 — outside `[0,100]` — and `setValue (1/2)` then stores the non-integer
`1/2`, so the claimed "integer in `[0,100]` in every reachable state"
invariant fails right after construction. -/
theorem constructor_value_unclamped :
    ∃ w0 w1 : World,
      construct 100 ⟨some 150, none, none, none, none⟩ = Except.ok w0 ∧
      w0.value = 150 ∧ ¬(150 : ℚ) ≤ 100 ∧
      w0.setValue (1 / 2) = Except.ok w1 ∧
      w1.value = 1 / 2 ∧ ∀ n : ℤ, (1 / 2 : ℚ) ≠ (n : ℚ) := by
  refine ⟨_, _, rfl, rfl, by norm_num, rfl, ?_, ?_⟩
  · norm_num [jsMin, jsMax]
  · intro n hn
    have h1 : (1 : ℚ) = 2 * (n : ℚ) := by
      rw [← hn]; norm_num
    have h2 : (1 : ℤ) = 2 * n := by exact_mod_cast h1
    omega

/-- C3: `destroy` nulls the context but a second `destroy` still calls
`stopAnimation → draw` and `clearRect` on it, so the second call throws a
`TypeError` instead of being an idempotent no-op. -/
theorem double_destroy_throws :
    ∃ w0 w1 : World,
      construct 100 optsNone = Except.ok w0 ∧
      w0.destroy = Except.ok w1 ∧
      w1.destroy = Except.error JSErr.typeError := by
  exact ⟨_, _, rfl, rfl, rfl⟩

/-- C4 counterexample: `setAnimate true` while already spinning starts a
second animation loop, after which two scheduled frames are outstanding, and
`setAnimate false` cancels only the last-stored one. -/
theorem double_start_two_frames :
    ∃ w0 w1 w2 w3 : World,
      construct 100 optsNone = Except.ok w0 ∧
      w0.setAnimate true = Except.ok w1 ∧
      w1.setAnimate true = Except.ok w2 ∧
      w2.sched.pending.length = 2 ∧
      w2.setAnimate false = Except.ok w3 ∧
      w3.sched.pending ≠ [] := by
  refine ⟨_, _, _, _, rfl, rfl, rfl, rfl, rfl, ?_⟩
  decide

/-- C2 (amended): provided the constructor's `value` override (if any) lies
in `[0,100]`, every state reachable by error-free operations keeps
`0 ≤ value ≤ 100`, and a `setValue` input outside `[0,100]` is clamped,
never rejected.  (The constructor itself does not clamp its override, and
values are rationals, not necessarily integers.) -/
theorem value_invariant (vw : ℚ) (o : Options) (w0 w : World)
    (hv : 0 ≤ o.value.getD 0 ∧ o.value.getD 0 ≤ 100)
    (h0 : construct vw o = Except.ok w0)
    (hr : Reach w0 w) :
    (0 ≤ w.value ∧ w.value ≤ 100) ∧
    ∀ v cs, w.ctx = some cs →
      ∃ w', runStep w (Op.setValue v) = Except.ok w' ∧
        w'.value = min 100 (max 0 v) := by
  have hbase : 0 ≤ w0.value ∧ w0.value ≤ 100 := by
    unfold construct World.setCanvasSize at h0
    have hval := (draw_ok_spec _ _ _ h0).1
    rw [hval]
    exact hv
  have hinv : 0 ≤ w.value ∧ w.value ≤ 100 := by
    clear h0
    induction hr with
    | refl => exact hbase
    | tail w1 w2 op hr1 hstep ih =>
        rcases runStep_ok_value _ _ _ hstep with hsame | ⟨v, hop, hval⟩
        · rw [hsame]; exact ih
        · rw [hval]; exact clamp_bounds v
  refine ⟨hinv, ?_⟩
  intro v cs hcs
  simp only [runStep]
  unfold World.setValue World.draw
  cases hh : w.hidden <;>
    simp [hh, hcs, jsMin_eq, jsMax_eq]

/-- C2 witness: the hypotheses at viewport width 100, empty options and the
empty operation sequence. -/
theorem value_invariant_witness :
    (0 ≤ (optsNone.value.getD 0 : ℚ) ∧ (optsNone.value.getD 0 : ℚ) ≤ 100) ∧
    (∃ w0 : World, construct 100 optsNone = Except.ok w0 ∧
      ((0 ≤ w0.value ∧ w0.value ≤ 100) ∧
        ∀ v cs, w0.ctx = some cs →
          ∃ w', runStep w0 (Op.setValue v) = Except.ok w' ∧
            w'.value = min 100 (max 0 v))) :=
  ⟨⟨by norm_num [optsNone], by norm_num [optsNone]⟩, _, rfl,
    value_invariant 100 optsNone _ _
      ⟨by norm_num [optsNone], by norm_num [optsNone]⟩ rfl Reach.refl⟩

/-- C4 (amended): as long as `setAnimate true` is never called while a frame
is already outstanding, every reachable state has at most one scheduled frame
outstanding, and `setAnimate false` cancels it (no frame remains pending). -/
theorem single_pending_frame (vw : ℚ) (o : Options) (w0 w : World)
    (h0 : construct vw o = Except.ok w0)
    (hr : ReachNoRestart w0 w) :
    w.sched.pending.length ≤ 1 ∧
    (∀ w', runStep w (Op.setAnimate false) = Except.ok w' →
      w'.sched.pending = []) := by
  have hbase : SchedInv w0 := by
    unfold construct World.setCanvasSize at h0
    obtain ⟨hv, ha, hh, hrot, haf, hcw, hch, hvis, hca, hrl, hs, hvw, hrend, hctx⟩ :=
      draw_ok_spec _ _ _ h0
    refine ⟨by rw [hs], by rw [hs]; exact Nat.zero_le 1, ?_⟩
    rw [hs, haf]
    intro id hid
    simp at hid
  have hinv : SchedInv w := by
    clear h0
    induction hr with
    | refl => exact hbase
    | tail w1 w2 op hr1 hstep hguard ih =>
        exact runStep_schedInv _ _ _ hstep hguard ih
  obtain ⟨hn1, hlen, hmem⟩ := hinv
  refine ⟨hlen, ?_⟩
  intro w' hstep
  simp only [runStep] at hstep
  rw [setAnimate_false_eq] at hstep
  obtain ⟨hs, _, _, _, _⟩ := stopAnimation_ok_sched _ _ hstep
  rw [hs]
  exact stopCancel_pending_nil { w with animate := false } hmem

/-- C4 witness: the hypotheses at viewport width 100, empty options and the
empty operation sequence. -/
theorem single_pending_frame_witness :
    ∃ w0 : World, construct 100 optsNone = Except.ok w0 ∧
      (w0.sched.pending.length ≤ 1 ∧
        ∀ w', runStep w0 (Op.setAnimate false) = Except.ok w' →
          w'.sched.pending = []) :=
  ⟨_, rfl, single_pending_frame 100 optsNone _ _ rfl ReachNoRestart.refl⟩

/-- C5: stopping the animation — by `setAnimate false` or by `destroy` —
cancels the (at most one) outstanding scheduled tick, resets the rotation to
exactly 0, and performs exactly one final render with rotation offset 0. -/
theorem stop_resets_and_renders_once (w : World) (cs : List DrawCmd)
    (hctx : w.ctx = some cs)
    (hp : ∀ id ∈ w.sched.pending, w.animationFrame = some id ∧ 0 < id) :
    (∃ w', w.setAnimate false = Except.ok w' ∧ w'.rotation = 0 ∧
      w'.renders = w.renders ++ [0] ∧ w'.sched.pending = []) ∧
    (∃ w', w.destroy = Except.ok w' ∧ w'.rotation = 0 ∧
      w'.renders = w.renders ++ [0] ∧ w'.sched.pending = []) := by
  constructor
  · rw [setAnimate_false_eq]
    obtain ⟨w1, hw1, hds⟩ := stopAnimation_ok_of_some { w with animate := false } cs hctx
    obtain ⟨hs, haf, hv, hrot, hrend⟩ := stopAnimation_ok_sched _ _ hw1
    refine ⟨w1, hw1, hrot, hrend, ?_⟩
    rw [hs]
    exact stopCancel_pending_nil { w with animate := false } hp
  · obtain ⟨w', hw'⟩ := destroy_ok_of_some w cs hctx
    obtain ⟨hs, haf, hv, hrot, hrend, hcn⟩ := destroy_ok_fields _ _ hw'
    refine ⟨w', hw', hrot, hrend, ?_⟩
    rw [hs]
    exact stopCancel_pending_nil w hp

/-- C5 witness: the concrete spinning state `sample` (outstanding frame 3,
stored id 3). -/
theorem stop_resets_and_renders_once_witness :
    sample.ctx = some [] ∧
    (∀ id ∈ sample.sched.pending, sample.animationFrame = some id ∧ 0 < id) ∧
    ((∃ w', sample.setAnimate false = Except.ok w' ∧ w'.rotation = 0 ∧
      w'.renders = sample.renders ++ [0] ∧ w'.sched.pending = []) ∧
     (∃ w', sample.destroy = Except.ok w' ∧ w'.rotation = 0 ∧
      w'.renders = sample.renders ++ [0] ∧ w'.sched.pending = [])) :=
  ⟨rfl, by decide, stop_resets_and_renders_once sample [] rfl (by decide)⟩

/-- C6: firing an outstanding animation tick advances the rotation by exactly
0.02 radians (so it strictly increases), renders with the accumulated offset,
and schedules the next tick, storing its id. -/
theorem tick_increments_by_step (w : World) (id : ℕ) (cs : List DrawCmd)
    (hid : id ∈ w.sched.pending) (hctx : w.ctx = some cs) :
    ∃ w', w.fireFrame id = Except.ok w' ∧
      w'.rotation = w.rotation + (0.02 : ℚ) ∧
      w.rotation < w'.rotation ∧
      w'.renders = w.renders ++ [w.rotation + (0.02 : ℚ)] ∧
      w'.animationFrame = some w.sched.nextId ∧
      w'.sched.pending =
        w.sched.pending.filter (fun j => j != id) ++ [w.sched.nextId] ∧
      w'.sched.nextId = w.sched.nextId + 1 := by
  unfold World.fireFrame
  rw [if_pos hid]
  obtain ⟨w', hw'⟩ := animateStep_ok_of_some { w with sched := w.sched.cancel id } cs hctx
  obtain ⟨hni, hpe, haf, hv, hrot, hrend⟩ := animateStep_ok_sched _ _ hw'
  refine ⟨w', hw', hrot, ?_, hrend, haf, hpe, hni⟩
  rw [hrot]
  exact lt_add_of_pos_right _ (by norm_num)

/-- C6 witness: firing the outstanding tick 3 of the concrete state
`sample`. -/
theorem tick_increments_by_step_witness :
    3 ∈ sample.sched.pending ∧ sample.ctx = some [] ∧
    (∃ w', sample.fireFrame 3 = Except.ok w' ∧
      w'.rotation = sample.rotation + (0.02 : ℚ) ∧
      sample.rotation < w'.rotation ∧
      w'.renders = sample.renders ++ [sample.rotation + (0.02 : ℚ)] ∧
      w'.animationFrame = some sample.sched.nextId ∧
      w'.sched.pending =
        sample.sched.pending.filter (fun j => j != 3) ++ [sample.sched.nextId] ∧
      w'.sched.nextId = sample.sched.nextId + 1) :=
  ⟨by decide, rfl, tick_increments_by_step sample 3 [] (by decide) rfl⟩

end ProgressBlock
